import Mathlib

/-!
Verification of the Feedora feed-aggregation core against its specification.

The Go sources are shallowly embedded: pure fragments become Lean functions,
Go maps become association lists or membership lists, Go `int`/`int64` become
`Int`, and Go string comparison becomes code-point-lexicographic comparison
(identical to Go's byte-wise order because UTF-8 preserves code-point order).
Definitions come first, theorems afterwards.
-/

namespace Feedora

/-! ## String order (Go `<`, `<=`, `>` on strings) -/

/-- Lexicographic order on code-point lists; agrees with Go's byte-wise
string comparison because UTF-8 encoding is order-preserving. -/
def charListLt : List Char → List Char → Bool
  | [], [] => false
  | [], _ :: _ => true
  | _ :: _, [] => false
  | a :: as, b :: bs =>
      if a.toNat < b.toNat then true
      else if b.toNat < a.toNat then false
      else charListLt as bs

/-- Go `a < b` on strings. -/
def strLt (a b : String) : Bool := charListLt a.data b.data

/-- Go `a <= b` on strings. -/
def strLe (a b : String) : Bool := !(strLt b a)

/-! ## Data model -/

/-- Go `models.Item` (src/models/feed.go plus the `FetchTime` field used
throughout src/unnamed/part_000 and src/utils/database.go). -/
structure Item where
  Link : String := ""
  Title : String := ""
  OriginalLink : String := ""
  Description : String := ""
  Source : String := ""
  PubDate : String := ""
  FetchTime : String := ""
  Category : String := ""
  OriginalIndex : Nat := 0
deriving DecidableEq, Repr

/-- Go `models.Feed` (src/models/feed.go). The `Custom` map holds the single
key `"lastupdate"`; it is embedded as the `lastupdate` field. -/
structure Feed where
  Title : String := ""
  Link : String := ""
  Icon : String := ""
  lastupdate : String := ""
  Items : List Item := []
  FilteredCount : Int := 0
  AllItemLinks : List String := []
  AllItemTitles : List String := []
deriving DecidableEq, Repr

/-- Go `models.FetchSchedule` (src/unnamed/part_003). -/
structure FetchSchedule where
  StartTime : String
  EndTime : String
  BaseRefresh : Int
  DefaultCount : Int
deriving DecidableEq, Repr

/-- A raw parsed feed entry as returned by the gofeed parser: title, link,
description and the optional published/updated timestamps, already rendered
in RFC3339 form. -/
structure RawItem where
  Link : String := ""
  Title : String := ""
  Description : String := ""
  Published : Option String := none
  Updated : Option String := none
deriving DecidableEq, Repr

/-! ## C6: interval policy -/

/-- The `match` flag computed inside `getEffectiveInterval`
(src/unnamed/part_000, lines 37-43). -/
def windowMatched (s : FetchSchedule) (now : String) : Bool :=
  if strLt s.StartTime s.EndTime then
    strLe s.StartTime now && strLe now s.EndTime
  else
    strLe s.StartTime now || strLe now s.EndTime

/-- `getEffectiveInterval` (src/unnamed/part_000, lines 27-58): scan the
schedule windows in order, skip degenerate windows, return base-refresh times
the effective count on the first match, and 0 when nothing matches. -/
def getEffectiveInterval (schedules : List FetchSchedule)
    (sourceRefreshCount : Int) (now : String) : Int :=
  match schedules with
  | [] => 0
  | s :: rest =>
      if s.StartTime = "" ∨ s.EndTime = "" ∨ s.StartTime = s.EndTime then
        getEffectiveInterval rest sourceRefreshCount now
      else if windowMatched s now then
        let count := if sourceRefreshCount > 0 then sourceRefreshCount
                     else s.DefaultCount
        s.BaseRefresh * count
      else
        getEffectiveInterval rest sourceRefreshCount now

/-- Matching re-stated from the specification's words: a window with
`start < end` matches iff `start ≤ t ≤ end`; with `start > end` iff
`t ≥ start ∨ t ≤ end`; windows with empty or equal bounds never match. -/
def specWindowMatches (s : FetchSchedule) (now : String) : Bool :=
  (s.StartTime ≠ "" ∧ s.EndTime ≠ "" ∧ s.StartTime ≠ s.EndTime : Bool) &&
    ((strLt s.StartTime s.EndTime && strLe s.StartTime now && strLe now s.EndTime) ||
     (strLt s.EndTime s.StartTime && (strLe s.StartTime now || strLe now s.EndTime)))

/-- Interval policy re-stated from the specification's words (§4.1/§8): the
first matching window wins, its interval being base-refresh times the
source's own count if positive, else the window's default count; no match
means interval 0. -/
def specEffectiveInterval (schedules : List FetchSchedule)
    (sourceRefreshCount : Int) (now : String) : Int :=
  match schedules.find? (fun s => specWindowMatches s now) with
  | some s =>
      s.BaseRefresh *
        (if sourceRefreshCount > 0 then sourceRefreshCount else s.DefaultCount)
  | none => 0

/-! ## Canonical sort (src/unnamed/part_000, lines 486-493) -/

/-- The comparison closure passed to `sort.SliceStable`: descending by
`PubDate`, ties broken ascending by `OriginalIndex`. -/
def itemLess (a b : Item) : Bool :=
  if a.PubDate = b.PubDate then a.OriginalIndex < b.OriginalIndex
  else strLt b.PubDate a.PubDate

/-- Insert into an already-sorted list, after every element strictly less
(keeps equal elements in their original relative order). -/
def stableInsert (less : α → α → Bool) (x : α) : List α → List α
  | [] => [x]
  | y :: l => if less y x then y :: stableInsert less x l else x :: y :: l

/-- Stable sort by the strict comparison `less`; embeds Go's
`sort.SliceStable`, whose output is the unique stable reordering sorted
under `less`. -/
def stableSort (less : α → α → Bool) : List α → List α
  | [] => []
  | a :: l => stableInsert less a (stableSort less l)

/-! ## Cache merge (src/unnamed/part_000, lines 651-706) -/

/-- First pass of `mergeWithCachedItems`: deduplicate the new items by link
(dropping empty links), also returning the `newLinks` set built alongside. -/
def dedupNew : List Item → List String → List Item × List String
  | [], seen => ([], seen)
  | i :: rest, seen =>
      if i.Link ≠ "" ∧ i.Link ∉ seen then
        let r := dedupNew rest (i.Link :: seen)
        (i :: r.1, r.2)
      else dedupNew rest seen

/-- The backfill loop of `mergeWithCachedItems`: walk the cached items,
appending those with a fresh non-empty link, stopping as soon as the merged
list reaches `cacheItems`. -/
def mergeLoop (cacheItems : Int) :
    List Item → List String → List Item → List Item
  | [], _, merged => merged
  | c :: rest, seen, merged =>
      let step : List Item × List String :=
        if c.Link ≠ "" ∧ c.Link ∉ seen then (merged ++ [c], c.Link :: seen)
        else (merged, seen)
      if (step.1.length : Int) ≥ cacheItems then step.1
      else mergeLoop cacheItems rest step.2 step.1

/-- Final truncation of the merged list to `cacheItems` entries. -/
def truncAt (cap : Int) (l : List Item) : List Item :=
  if (l.length : Int) > cap then l.take cap.toNat else l

/-- The minimal projection persisted to the retained-items cache
(description, source and original index dropped). -/
def projectCacheItem (i : Item) : Item :=
  { Title := i.Title, Link := i.Link, OriginalLink := i.OriginalLink,
    PubDate := i.PubDate, FetchTime := i.FetchTime, Category := i.Category }

/-- `mergeWithCachedItems` (src/unnamed/part_000, lines 652-706): returns the
merged display list together with the projected list written to the
retained-items cache by `SetItemsCache`. -/
def mergeWithCachedItems (newItems : List Item) (cached : Option (List Item))
    (cacheItems : Int) : List Item × List Item :=
  let dn := dedupNew newItems []
  let merged0 := dn.1
  let merged :=
    match cached with
    | some cs => mergeLoop cacheItems cs dn.2 merged0
    | none => merged0
  let merged2 := truncAt cacheItems merged
  (merged2, merged2.map projectCacheItem)

/-- The backfill sequence described by the specification: cached items with a
non-empty link not yet seen, in order, each marking its link as seen. -/
def backfill (seen : List String) : List Item → List Item
  | [] => []
  | c :: rest =>
      if c.Link ≠ "" ∧ c.Link ∉ seen then c :: backfill (c.Link :: seen) rest
      else backfill seen rest

/-- The effective retained-cache cap computed in `UpdateFeedWithOptions`
(src/unnamed/part_000, lines 517-521): a configured 0 means "cap equals the
current filtered count". -/
def effectiveCacheItems (cfg : Int) (filteredItems : List Item) : Int :=
  if cfg = 0 then (filteredItems.length : Int) else cfg

/-! ## Feed update engine (src/unnamed/part_000, lines 243-624) -/

/-- The max-items cap applied to the parsed item list
(src/unnamed/part_000, lines 304-308 and 451-455). -/
def capRaw (maxItems : Int) (items : List RawItem) : List RawItem :=
  if maxItems > 0 ∧ (items.length : Int) > maxItems then
    items.take maxItems.toNat
  else items

/-- Same cap applied to built items. -/
def capItems (maxItems : Int) (items : List Item) : List Item :=
  if maxItems > 0 ∧ (items.length : Int) > maxItems then
    items.take maxItems.toNat
  else items

/-- The `cachedPubDates` map (src/unnamed/part_000, lines 368-397): in-memory
snapshot items first (later entries overwrite), persisted retained items
backfill only missing links (first occurrence wins); empty values skipped. -/
def lookupCachedPubDate (memItems persisted : List Item) (link : String) :
    Option String :=
  match memItems.reverse.find? (fun i => i.Link = link ∧ i.PubDate ≠ "") with
  | some i => some i.PubDate
  | none =>
      match persisted.find? (fun i => i.Link = link ∧ i.PubDate ≠ "") with
      | some i => some i.PubDate
      | none => none

/-- The `cachedFetchTimes` map, built exactly like `cachedPubDates`. -/
def lookupCachedFetchTime (memItems persisted : List Item) (link : String) :
    Option String :=
  match memItems.reverse.find? (fun i => i.Link = link ∧ i.FetchTime ≠ "") with
  | some i => some i.FetchTime
  | none =>
      match persisted.find? (fun i => i.Link = link ∧ i.FetchTime ≠ "") with
      | some i => some i.FetchTime
      | none => none

/-- Timestamp reconciliation for one raw item at original index `idx`
(src/unnamed/part_000, lines 402-448). `rankingStamp idx` stands for
`rankingBaseTime.Add(-idx seconds).Format(RFC3339)`. -/
def buildItem (rankingMode ignorePub : Bool) (rankingStamp : Nat → String)
    (cachedPub cachedFetch : String → Option String)
    (formattedTime sourceTitle : String) (idx : Nat) (v : RawItem) : Item :=
  let pubDate :=
    if rankingMode then rankingStamp idx
    else if ignorePub then (cachedPub v.Link).getD formattedTime
    else
      match v.Published with
      | some p => p
      | none =>
          match v.Updated with
          | some u => u
          | none => (cachedPub v.Link).getD formattedTime
  let fetchTime := (cachedFetch v.Link).getD formattedTime
  { Link := v.Link, Title := v.Title, Description := v.Description,
    Source := sourceTitle, PubDate := pubDate, FetchTime := fetchTime,
    OriginalIndex := idx }

/-- The `allItems` construction loop (src/unnamed/part_000, lines 399-449),
carrying the running original index. -/
def buildAllItems (rankingMode ignorePub : Bool) (rankingStamp : Nat → String)
    (cachedPub cachedFetch : String → Option String)
    (formattedTime sourceTitle : String) (idx : Nat) :
    List RawItem → List Item
  | [] => []
  | v :: rest =>
      buildItem rankingMode ignorePub rankingStamp cachedPub cachedFetch
          formattedTime sourceTitle idx v ::
        buildAllItems rankingMode ignorePub rankingStamp cachedPub cachedFetch
          formattedTime sourceTitle (idx + 1) rest

/-- Change detection (src/unnamed/part_000, lines 311-340): returns
`(isChanged, hasNewItems)`. -/
def detectChange (checkItems : List RawItem) (cache : Feed) : Bool × Bool :=
  let hasNew := checkItems.any (fun it => decide (it.Link ∉ cache.AllItemLinks))
  if hasNew then (true, true)
  else
    let changed :=
      if checkItems.length ≠ cache.AllItemLinks.length ∨
          checkItems.length ≠ cache.AllItemTitles.length then true
      else
        (checkItems.zip (cache.AllItemLinks.zip cache.AllItemTitles)).any
          (fun p => decide (p.1.Link ≠ p.2.1 ∨ p.1.Title ≠ p.2.2))
    (changed, false)

/-- Re-derivation of the filtered list from the canonically sorted full list
(src/unnamed/part_000, lines 495-506). -/
def rederiveFiltered (sortedAll : List Item) (passed : List String) :
    List Item :=
  if passed.length < sortedAll.length then
    sortedAll.filter (fun it => decide (it.Link ∈ passed))
  else sortedAll

/-- The display "last updated" value: maximum non-empty `FetchTime` among the
final items (src/unnamed/part_000, lines 590-598). -/
def maxFetchTime (items : List Item) : String :=
  items.foldl
    (fun acc it =>
      if it.FetchTime ≠ "" ∧ (acc = "" ∨ strLt acc it.FetchTime = true) then
        it.FetchTime
      else acc) ""

/-- Result of one call to `UpdateFeedWithOptions` after a successful fetch:
either the change-detection short circuit (only the snapshot's display
timestamp may change) or a full pipeline run publishing a new snapshot and
optionally writing a new retained-items cache. -/
inductive UpdateOutcome where
  | skipped (snapshot : Feed)
  | published (snapshot : Feed) (writtenItemsCache : Option (List Item))
deriving DecidableEq, Repr

/-- The processing branch of `UpdateFeedWithOptions`
(src/unnamed/part_000, lines 364-623): build items, classify/filter, sort,
re-derive, post-process, cache-merge, publish. `classifyFn` and `postFn`
abstract `ClassifyItems` and `PostProcessItems` (the latter lives outside
the embedded pure fragment); `shouldUpdateDisplayTime` and the old snapshot
feed the display-timestamp fallback. -/
def processUpdate (url : String) (maxItems : Int)
    (ignorePub rankingMode shouldFilterF shouldPostF : Bool)
    (cacheItemsCfg : Int) (classifyFn postFn : List Item → List Item)
    (rankingStamp : Nat → String) (dbCache : Option Feed)
    (itemsCache : Option (List Item))
    (fetchedTitle icon formattedTime : String) (rawItems : List RawItem)
    (shouldUpdateDisplayTime : Bool) : UpdateOutcome :=
  let memItems := (dbCache.map Feed.Items).getD []
  let persisted := itemsCache.getD []
  let allItems0 :=
    buildAllItems rankingMode ignorePub rankingStamp
      (lookupCachedPubDate memItems persisted)
      (lookupCachedFetchTime memItems persisted)
      formattedTime fetchedTitle 0 rawItems
  let allItems1 := capItems maxItems allItems0
  let originalCount := allItems1.length
  let filtered0 := if shouldFilterF then classifyFn allItems1 else allItems1
  let passed :=
    if shouldFilterF then (filtered0.map Item.Link).dedup
    else (allItems1.map Item.Link).dedup
  let allItems2 :=
    if shouldFilterF then
      allItems1.map (fun it =>
        match filtered0.reverse.find? (fun f => f.Link = it.Link) with
        | some f => { it with Category := f.Category }
        | none => it)
    else allItems1
  let sortedAll := stableSort itemLess allItems2
  let filtered1 := rederiveFiltered sortedAll passed
  let filtered2 := if shouldPostF then postFn filtered1 else filtered1
  let effCache := effectiveCacheItems cacheItemsCfg filtered2
  let mergeStep : List Item × Option (List Item) :=
    if effCache > 0 then
      let r := mergeWithCachedItems filtered2 itemsCache effCache
      (r.1, some r.2)
    else (filtered2, none)
  let filtered3 := mergeStep.1
  let lastUpdate0 := maxFetchTime filtered3
  let oldLast := (dbCache.map Feed.lastupdate).getD ""
  let lastUpdate :=
    if lastUpdate0 = "" then
      if shouldUpdateDisplayTime = false ∧ dbCache.isSome ∧
          oldLast ≠ "已加载缓存" then oldLast
      else formattedTime
    else lastUpdate0
  .published
    { Title := fetchedTitle, Link := url, Icon := icon,
      lastupdate := lastUpdate, Items := filtered3,
      FilteredCount := (originalCount : Int) - (filtered3.length : Int),
      AllItemLinks := sortedAll.map Item.Link,
      AllItemTitles := sortedAll.map Item.Title }
    mergeStep.2

/-- `UpdateFeedWithOptions` after a successful fetch
(src/unnamed/part_000, lines 243-624): cap, change-detect (unless forced),
short-circuit when nothing changed (only replacing a cold-start placeholder
display timestamp), otherwise run the full processing branch. -/
def updateFeedModel (url : String) (maxItems : Int)
    (ignorePub rankingMode shouldFilterF shouldPostF : Bool)
    (cacheItemsCfg : Int) (classifyFn postFn : List Item → List Item)
    (rankingStamp : Nat → String) (dbCache : Option Feed)
    (itemsCache : Option (List Item))
    (fetchedTitle icon formattedTime : String) (rawItems : List RawItem)
    (forceReprocess : Bool) : UpdateOutcome :=
  let checkItems := capRaw maxItems rawItems
  match dbCache with
  | some cache =>
      if checkItems ≠ [] ∧ forceReprocess = false then
        let dc := detectChange checkItems cache
        if dc.1 = false then
          .skipped
            { cache with
              lastupdate :=
                if cache.lastupdate = "已加载缓存" then formattedTime
                else cache.lastupdate }
        else
          processUpdate url maxItems ignorePub rankingMode shouldFilterF
            shouldPostF cacheItemsCfg classifyFn postFn rankingStamp
            (some cache) itemsCache fetchedTitle icon formattedTime rawItems
            (!(ignorePub && !dc.2))
      else
        processUpdate url maxItems ignorePub rankingMode shouldFilterF
          shouldPostF cacheItemsCfg classifyFn postFn rankingStamp
          (some cache) itemsCache fetchedTitle icon formattedTime rawItems
          true
  | none =>
      processUpdate url maxItems ignorePub rankingMode shouldFilterF
        shouldPostF cacheItemsCfg classifyFn postFn rankingStamp
        none itemsCache fetchedTitle icon formattedTime rawItems
        true

/-! ## Garbage collection (src/unnamed/part_001, lines 666-743;
src/unnamed/part_000, lines 626-649) -/

/-- `cleanupClassifyCache` (src/unnamed/part_001, lines 666-688): delete the
classification entries whose link is not valid. -/
def cleanupClassifyCache (cache : List (String × String))
    (validLinks : List String) : List (String × String) :=
  cache.filter (fun e => decide (e.1 ∈ validLinks))

/-- `cleanupPostProcessCache` (src/unnamed/part_001, lines 721-743). The
entry payload is the rewritten (title, link, pubdate, processed-at). -/
def cleanupPostProcessCache
    (cache : List (String × (String × String × String × String)))
    (validLinks : List String) :
    List (String × (String × String × String × String)) :=
  cache.filter (fun e => decide (e.1 ∈ validLinks))

/-- `cleanupReadState` (src/unnamed/part_001, lines 690-719): delete a
read-state entry only when its link is invalid AND the 1-day grace period
(86400 seconds) since the read timestamp has fully elapsed. -/
def cleanupReadState (state : List (String × Int))
    (validLinks : List String) (now : Int) : List (String × Int) :=
  state.filter (fun e => decide (e.1 ∈ validLinks ∨ now - e.2 < 1 * 24 * 3600))

/-- `cleanupClassifyCacheForSource` (src/unnamed/part_000, lines 626-637):
the incremental per-source sweep deletes a link of the old list only when it
is not in the current valid set. -/
def cleanupClassifyCacheForSource (cache : List (String × String))
    (oldLinks currentLinks : List String) : List (String × String) :=
  cache.filter (fun e => decide (¬ (e.1 ∈ oldLinks ∧ e.1 ∉ currentLinks)))

/-! ## Config reconciliation (src/unnamed/part_000, lines 1241-1367;
src/unnamed/part_003) -/

/-- Go `models.ClassifyStrategy` (src/unnamed/part_003, lines 182-206). -/
structure ClassifyStrategy where
  KeywordEnabled : Option Bool := none
  AIEnabled : Option Bool := none
  FilterKeywords : List String := []
  KeepKeywords : List String := []
  WhitelistMode : Option Bool := none
  ScriptFilterEnabled : Option Bool := none
  ScriptFilterContent : String := ""
  BoundCategories : List String := []
  CategoryBlacklist : List String := []
  CategoryWhitelist : List String := []
  CustomPrompt : String := ""
deriving DecidableEq, Repr

/-- Go `models.PostProcessConfig` (src/unnamed/part_003, lines 240-258). -/
structure PostProcessConfig where
  Enabled : Bool := false
  Mode : String := ""
  Prompt : String := ""
  ScriptPath : String := ""
  ScriptContent : String := ""
  ModifyTitle : Bool := false
  ModifyLink : Bool := false
  ModifyPubDate : Bool := false
deriving DecidableEq, Repr

/-- Go `models.Source` (src/unnamed/part_003, lines 268-294). -/
structure Source where
  URL : String := ""
  Name : String := ""
  Icon : String := ""
  Classify : Option ClassifyStrategy := none
  IgnoreOriginalPubDate : Bool := false
  RankingMode : Bool := false
  MaxItems : Int := 0
  CacheItems : Int := 0
  PostProcess : Option PostProcessConfig := none
  RefreshCount : Int := 0
  ShowPubDate : Bool := false
  ShowCategory : Bool := false
deriving DecidableEq, Repr

/-- One `*bool` comparison step of `classifyChanged`: differing nil-ness, or
both set with different values. -/
def optBoolChanged (o n : Option Bool) : Bool :=
  if o.isNone ≠ n.isNone then true
  else
    match o, n with
    | some a, some b => a ≠ b
    | _, _ => false

/-- `classifyChanged` (src/unnamed/part_000, lines 1292-1343): nil-ness, the
four enable flags, the script filter content, and only the LENGTHS of the
two keyword lists are compared. -/
def classifyChanged (old new : Option ClassifyStrategy) : Bool :=
  match old, new with
  | none, none => false
  | none, some _ => true
  | some _, none => true
  | some o, some n =>
      optBoolChanged o.KeywordEnabled n.KeywordEnabled ||
      optBoolChanged o.AIEnabled n.AIEnabled ||
      optBoolChanged o.WhitelistMode n.WhitelistMode ||
      optBoolChanged o.ScriptFilterEnabled n.ScriptFilterEnabled ||
      (o.ScriptFilterContent ≠ n.ScriptFilterContent) ||
      (o.FilterKeywords.length ≠ n.FilterKeywords.length ∨
       o.KeepKeywords.length ≠ n.KeepKeywords.length)

/-- `postProcessChanged` (src/unnamed/part_000, lines 1346-1367): nil-ness
and all eight fields. -/
def postProcessChanged (old new : Option PostProcessConfig) : Bool :=
  match old, new with
  | none, none => false
  | none, some _ => true
  | some _, none => true
  | some o, some n =>
      (o.Enabled ≠ n.Enabled) || (o.Mode ≠ n.Mode) || (o.Prompt ≠ n.Prompt) ||
      (o.ScriptPath ≠ n.ScriptPath) || (o.ScriptContent ≠ n.ScriptContent) ||
      (o.ModifyTitle ≠ n.ModifyTitle) || (o.ModifyLink ≠ n.ModifyLink) ||
      (o.ModifyPubDate ≠ n.ModifyPubDate)

/-- `sourceChanged` (src/unnamed/part_000, lines 1269-1289). -/
def sourceChanged (old new : Source) : Bool :=
  (old.MaxItems ≠ new.MaxItems || old.CacheItems ≠ new.CacheItems ||
   old.IgnoreOriginalPubDate ≠ new.IgnoreOriginalPubDate ||
   old.RankingMode ≠ new.RankingMode) ||
  classifyChanged old.Classify new.Classify ||
  postProcessChanged old.PostProcess new.PostProcess

/-- The old-config source map keyed by URL (`oldSources`,
src/unnamed/part_000, lines 1246-1252): later duplicates overwrite. -/
def lookupOldSource (oldSources : List Source) (url : String) :
    Option Source :=
  (oldSources.filter (fun s => s.URL ≠ "")).reverse.find?
    (fun s => s.URL = url)

/-- `collectAffectedUrls` (src/unnamed/part_000, lines 1241-1266): a new
source's URL is affected when it is absent from the old map or
`sourceChanged` reports a relevant change. -/
def collectAffectedUrls (oldSources newSources : List Source) : List String :=
  (newSources.filter (fun s =>
    decide (s.URL ≠ "") &&
      match lookupOldSource oldSources s.URL with
      | none => true
      | some o => sourceChanged o s)).map Source.URL

/-- The subset of the classification strategy that `sourceChanged` actually
inspects, as a named comparison signature (spec §9: a structural-equality
check over an explicit "cache-affecting fields" subset). -/
def classifySig (c : Option ClassifyStrategy) :
    Option (Option Bool × Option Bool × Option Bool × Option Bool ×
            String × Nat × Nat) :=
  c.map (fun s =>
    (s.KeywordEnabled, s.AIEnabled, s.WhitelistMode, s.ScriptFilterEnabled,
     s.ScriptFilterContent, s.FilterKeywords.length, s.KeepKeywords.length))

/-- The content-affecting comparison re-stated from the amended claim: a
source is relevantly changed iff max-items, retained-cache policy,
ignore-pubdate, ranking mode, the inspected classification signature, or the
post-process config differ. -/
def sourceChangedSpec (old new : Source) : Prop :=
  old.MaxItems ≠ new.MaxItems ∨ old.CacheItems ≠ new.CacheItems ∨
  old.IgnoreOriginalPubDate ≠ new.IgnoreOriginalPubDate ∨
  old.RankingMode ≠ new.RankingMode ∨
  classifySig old.Classify ≠ classifySig new.Classify ∨
  old.PostProcess ≠ new.PostProcess

/-! ## AI batch classification (src/utils/llm.go, lines 504-714;
src/unnamed/part_003, lines 155-164) -/

/-- `AIClassifyConfig.GetRetryCount` (src/unnamed/part_003, lines 155-164):
negative configured values yield 0, zero yields the default 3. -/
def GetRetryCount (retryCount : Int) : Int :=
  if retryCount < 0 then 0
  else if retryCount = 0 then 3
  else retryCount

/-- The retry loop of the batch worker (src/utils/llm.go, lines 649-665).
`oracle n` is the outcome of attempt number `n`; the Go loop leaves `resp`
and `err` at their zero values (`nil`, `nil`) when it runs zero times. -/
def retryLoopAux (oracle : Nat → Except String (List (String × String)))
    (attempt : Nat) :
    Nat → Option (List (String × String)) × Option String →
    Option (List (String × String)) × Option String
  | 0, state => state
  | remaining + 1, _ =>
      match oracle attempt with
      | .ok v => (some v, none)
      | .error e => retryLoopAux oracle (attempt + 1) remaining (none, some e)

/-- `for attempt := 1; attempt <= maxRetries; attempt++ { ... }` with early
break on success. -/
def retryLoop (oracle : Nat → Except String (List (String × String)))
    (maxRetries : Int) :
    Option (List (String × String)) × Option String :=
  retryLoopAux oracle 1 maxRetries.toNat (none, none)

/-- Replace the `Category` of the element at position `i`
(`finalItems[t.index].Category = categoryID`, src/utils/llm.go line 690). -/
def setCategory : List Item → Nat → String → List Item
  | [], _, _ => []
  | x :: xs, 0, cat => { x with Category := cat } :: xs
  | x :: xs, n + 1, cat => x :: setCategory xs n cat

/-- One task of the response-application loop (src/utils/llm.go, lines
677-703): a missing index key counts the task as failed, a present one
applies the category in place. -/
def applyBatchStep (m : List (String × String)) (acc : List Item × Nat)
    (t : Nat × Item) : List Item × Nat :=
  match m.lookup (toString t.1) with
  | none => (acc.1, acc.2 + 1)
  | some cat => (setCategory acc.1 t.1 cat, acc.2)

/-- Response application of the batch worker
(src/utils/llm.go, lines 670-703): a `none` response map (retries exhausted)
marks every task failed and leaves all items untouched; with a response map,
a task whose index key is missing counts as failed and its item is left
unclassified, otherwise the category is applied in place. Returns the item
list and the failed count contributed by this batch. -/
def applyBatchResult (finalItems : List Item) (tasks : List (Nat × Item))
    (results : Option (List (String × String))) : List Item × Nat :=
  match results with
  | none => (finalItems, tasks.length)
  | some m => tasks.foldl (applyBatchStep m) (finalItems, 0)

/-- The batch worker after the retry loop (src/utils/llm.go, lines 646-703):
on error the batch fails as a whole; on success the response map is applied;
when the loop ran zero times both `resp` and `err` are `nil` and the code
dereferences the nil `resp` (`resp.Results`), modelled as `none`. -/
def batchWorkerOutcome (configuredRetryCount : Int)
    (oracle : Nat → Except String (List (String × String)))
    (finalItems : List Item) (tasks : List (Nat × Item)) :
    Option (List Item × Nat) :=
  let r := retryLoop oracle (GetRetryCount configuredRetryCount)
  match r.2 with
  | some _ => some (finalItems, tasks.length)
  | none =>
      match r.1 with
      | some m => some (applyBatchResult finalItems tasks (some m))
      | none => none

/-- Stage 1 of `applyFiltersAndReturn` (src/utils/llm.go, lines 724-736):
drop the items marked `_filtered`. -/
def dropKeywordFiltered (items : List Item) : List Item :=
  items.filter (fun it => decide (it.Category ≠ "_filtered"))

/-- The per-item keep decision of `applyCategoryFilter`
(src/utils/llm.go, lines 779-803). -/
def categoryKeep (whitelist blacklist : List String) (it : Item) : Bool :=
  if it.Category = "_keep" then true
  else if whitelist ≠ [] then decide (it.Category ∈ whitelist)
  else if blacklist ≠ [] then decide (it.Category ∉ blacklist)
  else true

/-- `applyCategoryFilter` (src/utils/llm.go, lines 763-810), written as the
source's accumulation loop. -/
def applyCategoryFilter (items : List Item)
    (whitelist blacklist : List String) : List Item :=
  items.foldl
    (fun acc it => if categoryKeep whitelist blacklist it then acc ++ [it]
                   else acc) []

/-! ## Script filter (src/utils/llm.go, lines 869-933) -/

/-- ASCII whitespace, as recognised by Go's `strings.TrimSpace`. -/
def isSpaceChar (c : Char) : Bool :=
  c = ' ' || c = '\t' || c = '\n' || c = '\r' || c = '\x0b' || c = '\x0c'

/-- Go `strings.TrimSpace`, over the code-point list. -/
def trimString (s : String) : String :=
  ⟨((s.data.dropWhile isSpaceChar).reverse.dropWhile isSpaceChar).reverse⟩

/-- Split a code-point list on a separator character
(Go `strings.Split` with a one-character separator). -/
def splitCharsOn (sep : Char) : List Char → List (List Char)
  | [] => [[]]
  | c :: rest =>
      let r := splitCharsOn sep rest
      if c = sep then [] :: r
      else
        match r with
        | [] => [[c]]
        | g :: gs => (c :: g) :: gs

/-- Go `strings.Split(s, "\n")`. -/
def splitLines (s : String) : List String :=
  (splitCharsOn (Char.ofNat 10) s.data).map (fun l => ⟨l⟩)

/-- Outcome of running the filter subprocess: the three error classes the
code distinguishes, or captured standard output. -/
inductive ScriptOutcome where
  | timeout
  | exitErr (stderr : String)
  | otherErr (msg : String)
  | output (stdout : String)
deriving DecidableEq, Repr

/-- The JSON-lines fallback parse (src/utils/llm.go, lines 909-928):
every non-blank line must parse and the result must be non-empty. -/
def parseJSONLines (parseLine : String → Option Item) (trimmed : String) :
    Option (List Item) :=
  let lines := (splitLines trimmed).map trimString
  let nonEmpty := lines.filter (fun l => l ≠ "")
  let parsed := nonEmpty.map parseLine
  if parsed.all Option.isSome ∧ nonEmpty ≠ [] then
    some (parsed.reduceOption)
  else none

/-- `ApplyScriptFilter` (src/utils/llm.go, lines 869-933). `parseArr` and
`parseLine` abstract `json.Unmarshal` into an item array / a single item.
Returns the resulting list and whether an error was surfaced (fail-open
keeps the input list). -/
def applyScriptFilter (parseArr : String → Option (List Item))
    (parseLine : String → Option Item) (items : List Item)
    (outcome : ScriptOutcome) : List Item × Bool :=
  if items = [] then (items, false)
  else
    match outcome with
    | .timeout => (items, true)
    | .exitErr _ => (items, true)
    | .otherErr _ => (items, true)
    | .output s =>
        let trimmed := trimString s
        if trimmed = "" then ([], false)
        else
          match parseArr s with
          | some filtered => (filtered, false)
          | none =>
              match parseJSONLines parseLine trimmed with
              | some l => (l, false)
              | none => (items, true)

/-! ## Concrete scenarios used by counterexamples and witnesses -/

/-- Erase the feed-provided timestamps of a raw item (used to state that
ranking mode ignores them). -/
def stripDates (v : RawItem) : RawItem :=
  { v with Published := none, Updated := none }

/-- A concrete first-build update run: one fetched item `A`, no filtering or
post-processing, retained-cache cap 2, and a retained cache holding an old
item `B` that the current fetch no longer returns. -/
def c1Run : UpdateOutcome :=
  updateFeedModel "u" 0 false false false false 2 id id (fun _ => "") none
    (some [{ Link := "B", Title := "B", PubDate := "x" }])
    "T" "" "t1" [{ Link := "A", Title := "A" }] false

/-- The snapshot published by `c1Run`. -/
def c1Snapshot : Feed :=
  match c1Run with
  | .published f _ => f
  | .skipped f => f

/-- A concrete previous snapshot whose full link/title lists match the
fetch `c3Raw` (used to witness the change-detection short circuit). -/
def c3Cache : Feed :=
  { Title := "T", Link := "u", lastupdate := "x",
    AllItemLinks := ["A"], AllItemTitles := ["A"] }

/-- A concrete fetch returning the same single item `A`. -/
def c3Raw : List RawItem := [{ Link := "A", Title := "A" }]

/-- A previous snapshot for an empty remote document: empty link and title
lists, and a real (non-placeholder) display timestamp `t1`. -/
def c3EmptyCache : Feed := { Title := "T", Link := "u", lastupdate := "t1" }

/-- A second update call at time `t2` fetching the unchanged EMPTY document
(the capped item list equals the snapshot's empty link/title lists), with
`force_reprocess = false` and the retained cache disabled. -/
def c3EmptyRun : UpdateOutcome :=
  updateFeedModel "u" 0 false false false false (-1) id id (fun _ => "")
    (some c3EmptyCache) none "T" "" "t2" [] false

/-- Concrete strictly decreasing synthetic timestamps for a three-item
ranking-mode fetch (standing for base, base-1s, base-2s in RFC3339 form). -/
def c7Stamp (i : Nat) : String :=
  if i = 0 then "c" else if i = 1 then "b" else "a"

/-- First ranking-mode fetch: items in order [A, B, C]. -/
def c7Fetch1 : List RawItem :=
  [{ Link := "A", Title := "A" }, { Link := "B", Title := "B" },
   { Link := "C", Title := "C" }]

/-- Second ranking-mode fetch: B and C swapped upstream, order [A, C, B]. -/
def c7Fetch2 : List RawItem :=
  [{ Link := "A", Title := "A" }, { Link := "C", Title := "C" },
   { Link := "B", Title := "B" }]

/-- Old configuration of source `u`: one filter keyword `ads`. -/
def c5OldSource : Source :=
  { URL := "u", Classify := some { FilterKeywords := ["ads"] } }

/-- New configuration of source `u`: the filter keyword text changed to
`xyz` (same list length); everything else identical. -/
def c5NewSource : Source :=
  { URL := "u", Classify := some { FilterKeywords := ["xyz"] } }

/-! # Theorems -/

/-! ## String order facts -/

theorem charListLt_asymm : ∀ {as bs : List Char},
    charListLt as bs = true → charListLt bs as = false := by
  intro as
  induction as with
  | nil => intro bs h; cases bs <;> simp_all [charListLt]
  | cons a as ih =>
      intro bs h
      cases bs with
      | nil => simp [charListLt] at h
      | cons b bs =>
          simp only [charListLt] at h ⊢
          by_cases h1 : a.toNat < b.toNat
          · have h2 : ¬ b.toNat < a.toNat := by omega
            simp [h1, h2]
          · by_cases h2 : b.toNat < a.toNat
            · simp [h1, h2] at h
            · simp [h1, h2] at h ⊢
              exact ih h

theorem charListLt_total : ∀ {as bs : List Char},
    charListLt as bs = false → charListLt bs as = false → as = bs := by
  intro as
  induction as with
  | nil => intro bs h1 h2; cases bs <;> simp_all [charListLt]
  | cons a as ih =>
      intro bs h1 h2
      cases bs with
      | nil => simp [charListLt] at h2
      | cons b bs =>
          simp only [charListLt] at h1 h2
          by_cases hab : a.toNat < b.toNat
          · simp [hab] at h1
          · by_cases hba : b.toNat < a.toNat
            · simp [hab, hba] at h2
            · simp [hab, hba] at h1 h2
              have hval : a = b := by
                apply Char.ext
                have : a.toNat = b.toNat := by omega
                exact UInt32.toNat.inj this
              rw [hval, ih h1 h2]

theorem strLt_total {a b : String} (h1 : strLt a b = false)
    (h2 : strLt b a = false) : a = b := by
  apply String.ext
  exact charListLt_total h1 h2

theorem strLt_asymm {a b : String} (h : strLt a b = true) :
    strLt b a = false :=
  charListLt_asymm h

/-! ## C6: the interval policy matches its specification -/

theorem specEffectiveInterval_cons_false {s : FetchSchedule}
    {rest : List FetchSchedule} {cnt : Int} {now : String}
    (h : specWindowMatches s now = false) :
    specEffectiveInterval (s :: rest) cnt now =
      specEffectiveInterval rest cnt now := by
  unfold specEffectiveInterval
  rw [List.find?_cons, h]

theorem specEffectiveInterval_cons_true {s : FetchSchedule}
    {rest : List FetchSchedule} {cnt : Int} {now : String}
    (h : specWindowMatches s now = true) :
    specEffectiveInterval (s :: rest) cnt now =
      s.BaseRefresh * (if cnt > 0 then cnt else s.DefaultCount) := by
  unfold specEffectiveInterval
  rw [List.find?_cons, h]

theorem getEffectiveInterval_eq_spec (schedules : List FetchSchedule)
    (cnt : Int) (now : String) :
    getEffectiveInterval schedules cnt now =
      specEffectiveInterval schedules cnt now := by
  induction schedules with
  | nil => rfl
  | cons s rest ih =>
      by_cases hdeg : s.StartTime = "" ∨ s.EndTime = "" ∨ s.StartTime = s.EndTime
      · have hms : specWindowMatches s now = false := by
          unfold specWindowMatches
          have hdec : (decide (s.StartTime ≠ "" ∧ s.EndTime ≠ "" ∧
              s.StartTime ≠ s.EndTime)) = false := by
            simp only [decide_eq_false_iff_not]
            tauto
          simp [hdec]
        unfold getEffectiveInterval
        rw [if_pos hdeg, ih, specEffectiveInterval_cons_false hms]
      · push_neg at hdeg
        obtain ⟨h1, h2, h3⟩ := hdeg
        have hdec : (decide (s.StartTime ≠ "" ∧ s.EndTime ≠ "" ∧
            s.StartTime ≠ s.EndTime)) = true := by
          simp only [decide_eq_true_iff]
          exact ⟨h1, h2, h3⟩
        have hnotdeg : ¬ (s.StartTime = "" ∨ s.EndTime = "" ∨
            s.StartTime = s.EndTime) := by tauto
        rcases hw : windowMatched s now with _ | _
        · -- no match: the spec predicate is false too
          have hms : specWindowMatches s now = false := by
            unfold specWindowMatches
            rw [hdec]
            unfold windowMatched at hw
            rcases hlt : strLt s.StartTime s.EndTime with _ | _
            · have hgt : strLt s.EndTime s.StartTime = true := by
                rcases hq : strLt s.EndTime s.StartTime with _ | _
                · exact absurd (strLt_total hlt hq) h3
                · rfl
              rw [hlt] at hw
              simp only [Bool.false_eq_true, if_false] at hw
              simp_all
            · have hgt : strLt s.EndTime s.StartTime = false := strLt_asymm hlt
              rw [hlt] at hw
              simp only [if_pos rfl] at hw
              simp_all
          unfold getEffectiveInterval
          rw [if_neg hnotdeg, hw]
          simp only [Bool.false_eq_true, if_false]
          rw [ih, specEffectiveInterval_cons_false hms]
        · -- match: the spec predicate is true too
          have hms : specWindowMatches s now = true := by
            unfold specWindowMatches
            rw [hdec]
            unfold windowMatched at hw
            rcases hlt : strLt s.StartTime s.EndTime with _ | _
            · have hgt : strLt s.EndTime s.StartTime = true := by
                rcases hq : strLt s.EndTime s.StartTime with _ | _
                · exact absurd (strLt_total hlt hq) h3
                · rfl
              rw [hlt] at hw
              simp only [Bool.false_eq_true, if_false] at hw
              simp_all
            · rw [hlt] at hw
              simp only [if_pos rfl] at hw
              simp_all
          unfold getEffectiveInterval
          rw [if_neg hnotdeg, hw]
          simp only [if_true]
          rw [specEffectiveInterval_cons_true hms]

/-- C6: `effective_interval` scans windows in configured order; matching is
`start ≤ t ≤ end` for `start < end`, `t ≥ start ∨ t ≤ end` for `start > end`,
never for empty or equal bounds; the first match yields base-refresh times
(the source's refresh count if positive, else the window's default count);
no match yields 0. In particular a `[08:00:00, 23:00:00]` window with base
refresh 10 and a source refresh count of 3 gives interval 30 at 09:00:00. -/
theorem effective_interval_policy :
    (∀ (schedules : List FetchSchedule) (cnt : Int) (now : String),
        getEffectiveInterval schedules cnt now =
          specEffectiveInterval schedules cnt now) ∧
    getEffectiveInterval
      [{ StartTime := "08:00:00", EndTime := "23:00:00",
         BaseRefresh := 10, DefaultCount := 1 }] 3 "09:00:00" = 30 :=
  ⟨getEffectiveInterval_eq_spec, by decide⟩

/-! ## C2: cache-merge bound, dedup and shape -/

theorem truncAt_eq_take {cap : Int} (hcap : 0 < cap) (l : List Item) :
    truncAt cap l = l.take cap.toNat := by
  unfold truncAt
  by_cases h : (l.length : Int) > cap
  · rw [if_pos h]
  · rw [if_neg h]
    have hle : l.length ≤ cap.toNat := by omega
    exact (List.take_of_length_le hle).symm

theorem take_append_of_ge_cap {cap : Int} (hcap : 0 < cap) {l t : List Item}
    (h : (l.length : Int) ≥ cap) :
    (l ++ t).take cap.toNat = l.take cap.toNat :=
  List.take_append_of_le_length (by omega)

theorem mergeLoop_trunc {cap : Int} (hcap : 0 < cap) :
    ∀ (cs : List Item) (seen : List String) (merged : List Item),
      truncAt cap (mergeLoop cap cs seen merged) =
        (merged ++ backfill seen cs).take cap.toNat := by
  intro cs
  induction cs with
  | nil =>
      intro seen merged
      unfold mergeLoop backfill
      rw [List.append_nil, truncAt_eq_take hcap]
  | cons c rest ih =>
      intro seen merged
      unfold mergeLoop backfill
      by_cases hq : c.Link ≠ "" ∧ c.Link ∉ seen
      · simp only [if_pos hq]
        by_cases hbr : ((merged ++ [c]).length : Int) ≥ cap
        · rw [if_pos hbr, truncAt_eq_take hcap]
          have hrw : merged ++ c :: backfill (c.Link :: seen) rest =
              (merged ++ [c]) ++ backfill (c.Link :: seen) rest := by simp
          rw [hrw, take_append_of_ge_cap hcap hbr]
        · rw [if_neg hbr, ih]
          have hrw : merged ++ c :: backfill (c.Link :: seen) rest =
              (merged ++ [c]) ++ backfill (c.Link :: seen) rest := by simp
          rw [hrw]
      · simp only [if_neg hq]
        by_cases hbr : ((merged).length : Int) ≥ cap
        · rw [if_pos hbr, truncAt_eq_take hcap,
            take_append_of_ge_cap hcap hbr]
        · rw [if_neg hbr, ih]

theorem dedupNew_links : ∀ (items : List Item) (seen : List String),
    ((dedupNew items seen).1.map Item.Link).Nodup ∧
    (∀ l ∈ (dedupNew items seen).1.map Item.Link, l ∉ seen) ∧
    (∀ l ∈ seen, l ∈ (dedupNew items seen).2) ∧
    (∀ l ∈ (dedupNew items seen).1.map Item.Link,
        l ∈ (dedupNew items seen).2) := by
  intro items
  induction items with
  | nil =>
      intro seen
      refine ⟨List.nodup_nil, ?_, ?_, ?_⟩ <;> simp [dedupNew]
  | cons i rest ih =>
      intro seen
      by_cases hq : i.Link ≠ "" ∧ i.Link ∉ seen
      · have hstep : dedupNew (i :: rest) seen =
            ((i :: (dedupNew rest (i.Link :: seen)).1),
             (dedupNew rest (i.Link :: seen)).2) := by
          simp only [dedupNew]
          rw [if_pos hq]
        obtain ⟨ihn, ihs, ihsub, ihin⟩ := ih (i.Link :: seen)
        rw [hstep]
        refine ⟨?_, ?_, ?_, ?_⟩
        · simp only [List.map_cons, List.nodup_cons]
          refine ⟨fun hmem => ?_, ihn⟩
          exact (ihs _ hmem) (List.mem_cons_self _ _)
        · intro l hl
          simp only [List.map_cons, List.mem_cons] at hl
          rcases hl with rfl | hl
          · exact hq.2
          · intro hmem
            exact (ihs _ hl) (List.mem_cons_of_mem _ hmem)
        · intro l hl
          exact ihsub _ (List.mem_cons_of_mem _ hl)
        · intro l hl
          simp only [List.map_cons, List.mem_cons] at hl
          rcases hl with rfl | hl
          · exact ihsub _ (List.mem_cons_self _ _)
          · exact ihin _ hl
      · have hstep : dedupNew (i :: rest) seen = dedupNew rest seen := by
          simp only [dedupNew]
          rw [if_neg hq]
        rw [hstep]
        exact ih seen

theorem backfill_links : ∀ (cs : List Item) (seen : List String),
    ((backfill seen cs).map Item.Link).Nodup ∧
    (∀ l ∈ (backfill seen cs).map Item.Link, l ∉ seen) := by
  intro cs
  induction cs with
  | nil => intro seen; simp [backfill]
  | cons c rest ih =>
      intro seen
      by_cases hq : c.Link ≠ "" ∧ c.Link ∉ seen
      · have hstep : backfill seen (c :: rest) =
            c :: backfill (c.Link :: seen) rest := by
          simp only [backfill]
          rw [if_pos hq]
        obtain ⟨ihn, ihs⟩ := ih (c.Link :: seen)
        rw [hstep]
        constructor
        · simp only [List.map_cons, List.nodup_cons]
          refine ⟨fun hmem => ?_, ihn⟩
          exact (ihs _ hmem) (List.mem_cons_self _ _)
        · intro l hl
          simp only [List.map_cons, List.mem_cons] at hl
          rcases hl with rfl | hl
          · exact hq.2
          · intro hmem
            exact (ihs _ hl) (List.mem_cons_of_mem _ hmem)
      · have hstep : backfill seen (c :: rest) = backfill seen rest := by
          simp only [backfill]
          rw [if_neg hq]
        rw [hstep]
        exact ih seen

theorem uniqueNew_append_backfill_nodup (newItems cs : List Item) :
    (((dedupNew newItems []).1 ++
        backfill (dedupNew newItems []).2 cs).map Item.Link).Nodup := by
  obtain ⟨hdn, _, _, hdin⟩ := dedupNew_links newItems []
  obtain ⟨hbn, hbs⟩ := backfill_links cs (dedupNew newItems []).2
  rw [List.map_append]
  refine hdn.append hbn ?_
  intro l hl1 hl2
  exact (hbs _ hl2) (hdin _ hl1)

theorem projectCacheItem_link (i : Item) :
    (projectCacheItem i).Link = i.Link := rfl

theorem mergeWithCachedItems_shape (newItems : List Item)
    (cached : Option (List Item)) {N : Int} (hN : 0 < N) :
    (mergeWithCachedItems newItems cached N).1 =
      ((dedupNew newItems []).1 ++
        backfill (dedupNew newItems []).2 (cached.getD [])).take N.toNat := by
  unfold mergeWithCachedItems
  cases cached with
  | none =>
      simp only [Option.getD_none]
      rw [truncAt_eq_take hN]
      have : backfill (dedupNew newItems []).2 ([] : List Item) = [] := rfl
      rw [this, List.append_nil]
  | some cs =>
      simp only [Option.getD_some]
      exact mergeLoop_trunc hN cs _ _

/-- C2: after a merge step with cap `N > 0`, the retained cache written for
the source has at most `N` entries, no two entries with the same link, and
is exactly the minimal projection of the deduplicated new filtered items
followed by the previously retained items not present in the new set,
truncated at `N`; a configured cap of 0 makes the effective cap the current
filtered count. -/
theorem merge_cache_bound (newItems : List Item) (cached : Option (List Item))
    (N : Int) (hN : 0 < N) :
    (((mergeWithCachedItems newItems cached N).2.length : Int) ≤ N) ∧
    ((mergeWithCachedItems newItems cached N).2.map Item.Link).Nodup ∧
    (mergeWithCachedItems newItems cached N).2 =
      (((dedupNew newItems []).1 ++
          backfill (dedupNew newItems []).2 (cached.getD [])).take
        N.toNat).map projectCacheItem ∧
    (∀ filteredItems : List Item,
        effectiveCacheItems 0 filteredItems = (filteredItems.length : Int)) := by
  have hsnd : (mergeWithCachedItems newItems cached N).2 =
      ((mergeWithCachedItems newItems cached N).1).map projectCacheItem := rfl
  have hshape := mergeWithCachedItems_shape newItems cached hN
  refine ⟨?_, ?_, ?_, ?_⟩
  · rw [hsnd, List.length_map, hshape]
    have := List.length_take_le N.toNat
      ((dedupNew newItems []).1 ++
        backfill (dedupNew newItems []).2 (cached.getD []))
    omega
  · rw [hsnd, hshape]
    have hmaps : ((((dedupNew newItems []).1 ++
        backfill (dedupNew newItems []).2 (cached.getD [])).take
          N.toNat).map projectCacheItem).map Item.Link =
        ((((dedupNew newItems []).1 ++
          backfill (dedupNew newItems []).2 (cached.getD [])).map
            Item.Link).take N.toNat) := by
      rw [List.map_map]
      rw [← List.map_take]
      rfl
    rw [hmaps]
    exact (uniqueNew_append_backfill_nodup newItems (cached.getD [])).sublist
      (List.take_sublist _ _)
  · rw [hsnd, hshape]
  · intro filteredItems
    rfl

/-! ## C3: change-detection short circuit -/

theorem zip_self_any_false : ∀ (cks : List RawItem),
    ((cks.zip ((cks.map RawItem.Link).zip (cks.map RawItem.Title))).any
      (fun p => decide (p.1.Link ≠ p.2.1 ∨ p.1.Title ≠ p.2.2))) = false := by
  intro cks
  induction cks with
  | nil => rfl
  | cons c rest ih =>
      simp only [List.map_cons, List.zip_cons_cons, List.any_cons, ih,
        Bool.or_false]
      simp

theorem detectChange_unchanged {checkItems : List RawItem} {cache : Feed}
    (hl : checkItems.map RawItem.Link = cache.AllItemLinks)
    (ht : checkItems.map RawItem.Title = cache.AllItemTitles) :
    detectChange checkItems cache = (false, false) := by
  unfold detectChange
  rw [← hl, ← ht]
  have h1 : (checkItems.any fun it =>
      decide (it.Link ∉ checkItems.map RawItem.Link)) = false := by
    rw [List.any_eq_false]
    intro it hit
    simp only [decide_eq_true_eq, Decidable.not_not]
    exact List.mem_map_of_mem _ hit
  simp only [h1, Bool.false_eq_true, if_false]
  have h2 : ¬ (checkItems.length ≠ (checkItems.map RawItem.Link).length ∨
      checkItems.length ≠ (checkItems.map RawItem.Title).length) := by
    simp
  simp only [if_neg h2, zip_self_any_false]

/-- C3 (counterexample to the claim as stated): for an unchanged EMPTY
remote document the guard `len(checkItems) > 0` skips change detection
entirely, so the second call reprocesses and re-publishes the snapshot,
replacing the real (non-placeholder) display timestamp `t1` by the current
time `t2` — the snapshot is not left identical and a re-publication does
occur. -/
theorem update_idempotence_counterexample :
    (capRaw 0 ([] : List RawItem)).map RawItem.Link =
      c3EmptyCache.AllItemLinks ∧
    (capRaw 0 ([] : List RawItem)).map RawItem.Title =
      c3EmptyCache.AllItemTitles ∧
    c3EmptyCache.lastupdate ≠ "已加载缓存" ∧
    c3EmptyRun = .published { c3EmptyCache with lastupdate := "t2" } none ∧
    ({ c3EmptyCache with lastupdate := "t2" } : Feed) ≠ c3EmptyCache :=
  ⟨by decide, by decide, by decide, by decide, by decide⟩

/-- C3 (amended): a second update call whose capped fetch is NON-EMPTY and
reproduces the previous snapshot's full link and title lists, with
`force_reprocess = false`, takes the change-detection short circuit: the
outcome is `skipped` for EVERY classification and post-processing function
(so no reclassification, merge or re-publication can occur), the snapshot
is kept identical except that a cold-start placeholder display timestamp is
replaced by the current time, and it is exactly identical when no
placeholder was present. For an unchanged empty document the short circuit
does not apply (see the counterexample above). -/
theorem update_unchanged_skips
    (url : String) (maxItems : Int)
    (ignorePub rankingMode shouldFilterF shouldPostF : Bool)
    (cacheItemsCfg : Int) (classifyFn postFn : List Item → List Item)
    (rankingStamp : Nat → String) (itemsCache : Option (List Item))
    (fetchedTitle icon formattedTime : String) (rawItems : List RawItem)
    (cache : Feed)
    (hl : (capRaw maxItems rawItems).map RawItem.Link = cache.AllItemLinks)
    (ht : (capRaw maxItems rawItems).map RawItem.Title = cache.AllItemTitles)
    (hne : capRaw maxItems rawItems ≠ []) :
    updateFeedModel url maxItems ignorePub rankingMode shouldFilterF
        shouldPostF cacheItemsCfg classifyFn postFn rankingStamp (some cache)
        itemsCache fetchedTitle icon formattedTime rawItems false =
      .skipped { cache with lastupdate :=
          if cache.lastupdate = "已加载缓存" then formattedTime
          else cache.lastupdate } ∧
    (cache.lastupdate ≠ "已加载缓存" →
      updateFeedModel url maxItems ignorePub rankingMode shouldFilterF
          shouldPostF cacheItemsCfg classifyFn postFn rankingStamp (some cache)
          itemsCache fetchedTitle icon formattedTime rawItems false =
        .skipped cache) := by
  have hdc := detectChange_unchanged hl ht
  have hmain : updateFeedModel url maxItems ignorePub rankingMode shouldFilterF
      shouldPostF cacheItemsCfg classifyFn postFn rankingStamp (some cache)
      itemsCache fetchedTitle icon formattedTime rawItems false =
      .skipped { cache with lastupdate :=
          if cache.lastupdate = "已加载缓存" then formattedTime
          else cache.lastupdate } := by
    unfold updateFeedModel
    simp [hdc, hne]
  refine ⟨hmain, fun hnp => ?_⟩
  rw [hmain, if_neg hnp]

theorem update_unchanged_skips_witness :
    ((capRaw 0 c3Raw).map RawItem.Link = c3Cache.AllItemLinks) ∧
    ((capRaw 0 c3Raw).map RawItem.Title = c3Cache.AllItemTitles) ∧
    (capRaw 0 c3Raw ≠ []) ∧
    (updateFeedModel "u" 0 false false false false 0 id id (fun _ => "")
        (some c3Cache) none "T" "" "t2" c3Raw false =
      .skipped { c3Cache with lastupdate :=
          if c3Cache.lastupdate = "已加载缓存" then "t2"
          else c3Cache.lastupdate } ∧
     (c3Cache.lastupdate ≠ "已加载缓存" →
       updateFeedModel "u" 0 false false false false 0 id id (fun _ => "")
          (some c3Cache) none "T" "" "t2" c3Raw false =
         .skipped c3Cache)) :=
  ⟨by decide, by decide, by decide,
   update_unchanged_skips "u" 0 false false false false 0 id id (fun _ => "")
     none "T" "" "t2" c3Raw c3Cache (by decide) (by decide) (by decide)⟩

/-! ## C4: garbage-collection safety -/

/-- C4: no garbage-collection pass deletes a link-keyed cache entry whose
link is in the valid set it was given — the full-sweep classification and
post-process cleanups, the incremental per-source classification cleanup,
and the read-state cleanup all keep such entries; read-state entries are
additionally kept whenever less than the 1-day grace period (86400 seconds)
has elapsed since their read timestamp, valid or not. -/
theorem gc_safety :
    (∀ (cache : List (String × String)) (validLinks : List String)
        (e : String × String), e ∈ cache → e.1 ∈ validLinks →
          e ∈ cleanupClassifyCache cache validLinks) ∧
    (∀ (cache : List (String × (String × String × String × String)))
        (validLinks : List String)
        (e : String × (String × String × String × String)),
        e ∈ cache → e.1 ∈ validLinks →
          e ∈ cleanupPostProcessCache cache validLinks) ∧
    (∀ (cache : List (String × String)) (oldLinks currentLinks : List String)
        (e : String × String), e ∈ cache → e.1 ∈ currentLinks →
          e ∈ cleanupClassifyCacheForSource cache oldLinks currentLinks) ∧
    (∀ (state : List (String × Int)) (validLinks : List String) (now : Int)
        (e : String × Int), e ∈ state → e.1 ∈ validLinks →
          e ∈ cleanupReadState state validLinks now) ∧
    (∀ (state : List (String × Int)) (validLinks : List String) (now : Int)
        (e : String × Int), e ∈ state → now - e.2 < 86400 →
          e ∈ cleanupReadState state validLinks now) := by
  refine ⟨?_, ?_, ?_, ?_, ?_⟩
  · intro cache validLinks e he hv
    unfold cleanupClassifyCache
    rw [List.mem_filter]
    exact ⟨he, by simpa using hv⟩
  · intro cache validLinks e he hv
    unfold cleanupPostProcessCache
    rw [List.mem_filter]
    exact ⟨he, by simpa using hv⟩
  · intro cache oldLinks currentLinks e he hv
    unfold cleanupClassifyCacheForSource
    rw [List.mem_filter]
    refine ⟨he, by simp; tauto⟩
  · intro state validLinks now e he hv
    unfold cleanupReadState
    rw [List.mem_filter]
    exact ⟨he, by simp; tauto⟩
  · intro state validLinks now e he hg
    unfold cleanupReadState
    rw [List.mem_filter]
    refine ⟨he, ?_⟩
    simp only [decide_eq_true_eq]
    right
    omega

theorem gc_safety_witness :
    ((("l", "cat") ∈ ([("l", "cat")] : List (String × String))) ∧
      ("l" ∈ ["l"])) ∧
    (("l", "cat") ∈ cleanupClassifyCache [("l", "cat")] ["l"]) ∧
    ((("r", (5 : Int)) ∈ ([("r", (5 : Int))] : List (String × Int))) ∧
      ((10 : Int) - 5 < 86400)) ∧
    (("r", (5 : Int)) ∈ cleanupReadState [("r", (5 : Int))] [] 10) :=
  ⟨⟨by decide, by decide⟩,
   gc_safety.1 [("l", "cat")] ["l"] ("l", "cat") (by decide) (by decide),
   ⟨by decide, by decide⟩,
   gc_safety.2.2.2.2 [("r", (5 : Int))] [] 10 ("r", (5 : Int))
     (by decide) (by decide)⟩

/-! ## C5: config-reload affected-source detection -/

theorem optBoolChanged_iff (o n : Option Bool) :
    optBoolChanged o n = true ↔ o ≠ n := by
  cases o <;> cases n <;> simp [optBoolChanged]

theorem classifyChanged_iff (o n : Option ClassifyStrategy) :
    classifyChanged o n = true ↔ classifySig o ≠ classifySig n := by
  cases o with
  | none => cases n <;> simp [classifyChanged, classifySig]
  | some s =>
      cases n with
      | none => simp [classifyChanged, classifySig]
      | some t =>
          simp only [classifyChanged, Bool.or_eq_true, optBoolChanged_iff,
            decide_eq_true_eq, classifySig, Option.map_some', ne_eq,
            Option.some.injEq, Prod.mk.injEq]
          tauto

theorem postProcessChanged_iff (o n : Option PostProcessConfig) :
    postProcessChanged o n = true ↔ o ≠ n := by
  cases o with
  | none => cases n <;> simp [postProcessChanged]
  | some a =>
      cases n with
      | none => simp [postProcessChanged]
      | some b =>
          cases a
          cases b
          simp only [postProcessChanged, Bool.or_eq_true, decide_eq_true_eq,
            ne_eq, Option.some.injEq, PostProcessConfig.mk.injEq]
          tauto

theorem sourceChanged_iff (o n : Source) :
    sourceChanged o n = true ↔ sourceChangedSpec o n := by
  unfold sourceChanged sourceChangedSpec
  simp only [Bool.or_eq_true, decide_eq_true_eq, classifyChanged_iff,
    postProcessChanged_iff, ne_eq]
  tauto

theorem collectAffectedUrls_mem (olds news : List Source) (url : String) :
    url ∈ collectAffectedUrls olds news ↔
      ∃ s, s ∈ news ∧ s.URL = url ∧ url ≠ "" ∧
        (lookupOldSource olds url = none ∨
         ∃ o, lookupOldSource olds url = some o ∧ sourceChanged o s = true) := by
  unfold collectAffectedUrls
  simp only [List.mem_map, List.mem_filter]
  constructor
  · rintro ⟨s, ⟨hs, hcond⟩, rfl⟩
    rw [Bool.and_eq_true] at hcond
    obtain ⟨hne, hmatch⟩ := hcond
    refine ⟨s, hs, rfl, by simpa using hne, ?_⟩
    cases hold : lookupOldSource olds s.URL with
    | none => exact Or.inl rfl
    | some o =>
        rw [hold] at hmatch
        exact Or.inr ⟨o, rfl, hmatch⟩
  · rintro ⟨s, hs, rfl, hne, hor⟩
    refine ⟨s, ⟨hs, ?_⟩, rfl⟩
    rw [Bool.and_eq_true]
    refine ⟨by simpa using hne, ?_⟩
    rcases hor with hnone | ⟨o, hsome, hch⟩
    · rw [hnone]
    · rw [hsome]
      exact hch

/-- C5 (amended): on reload, a source is affected iff it is new or one of
the fields the code actually compares changed: max-items, retained-cache
policy, ignore-original-pubdate, ranking mode, the inspected classification
signature (presence, the four enable flags, the script filter content, and
only the LENGTHS of the filter/keep keyword lists), or the post-process
config. Changes confined to a keyword's text at unchanged list length, the
category whitelists/blacklists, the bound categories, or the custom prompt
do NOT mark the source affected. -/
theorem affected_urls_characterization :
    (∀ (o n : Source), sourceChanged o n = true ↔ sourceChangedSpec o n) ∧
    (∀ (olds news : List Source) (url : String),
        url ∈ collectAffectedUrls olds news ↔
          ∃ s, s ∈ news ∧ s.URL = url ∧ url ≠ "" ∧
            (lookupOldSource olds url = none ∨
             ∃ o, lookupOldSource olds url = some o ∧
               sourceChanged o s = true)) :=
  ⟨sourceChanged_iff, collectAffectedUrls_mem⟩

/-- C5 (counterexample to the claim as stated): changing a filter keyword's
text from `ads` to `xyz` without changing the list length is a change to the
full classification strategy, yet `sourceChanged` reports no change and the
reload marks no source affected. -/
theorem affected_urls_counterexample :
    c5OldSource.Classify ≠ c5NewSource.Classify ∧
    sourceChanged c5OldSource c5NewSource = false ∧
    collectAffectedUrls [c5OldSource] [c5NewSource] = [] :=
  ⟨by decide, by decide, by decide⟩

/-! ## C7: ranking mode preserves the fetched order -/

theorem stableSort_eq_self {less : α → α → Bool} :
    ∀ {l : List α}, List.Chain' (fun a b => less b a = false) l →
      stableSort less l = l := by
  intro l
  induction l with
  | nil => intro _; rfl
  | cons a t ih =>
      intro h
      simp only [stableSort]
      rw [ih h.tail]
      cases t with
      | nil => rfl
      | cons b t2 =>
          have hab : less b a = false := h.rel_head
          simp only [stableInsert, hab, Bool.false_eq_true, if_false]

theorem buildItem_ranking_pubDate (ip : Bool) (stamp : Nat → String)
    (cp cf : String → Option String) (ft st : String) (idx : Nat)
    (v : RawItem) :
    (buildItem true ip stamp cp cf ft st idx v).PubDate = stamp idx := rfl

theorem buildAllItems_chain (ip : Bool) (stamp : Nat → String)
    (cp cf : String → Option String) (ft st : String) :
    ∀ (raws : List RawItem) (idx : Nat),
      (∀ j, j + 1 < raws.length →
        strLt (stamp (idx + j + 1)) (stamp (idx + j)) = true) →
      List.Chain' (fun a b => itemLess b a = false)
        (buildAllItems true ip stamp cp cf ft st idx raws) := by
  intro raws
  induction raws with
  | nil => intro idx _; simp [buildAllItems]
  | cons v rest ih =>
      intro idx h
      cases rest with
      | nil => simp [buildAllItems]
      | cons v2 rest2 =>
          simp only [buildAllItems]
          refine List.Chain'.cons ?_ ?_
          · have hlt : strLt (stamp (idx + 1)) (stamp idx) = true := by
              have := h 0 (by simp)
              simpa using this
            unfold itemLess
            rw [buildItem_ranking_pubDate, buildItem_ranking_pubDate]
            by_cases heq : stamp (idx + 1) = stamp idx
            · rw [heq] at hlt
              have := strLt_asymm hlt
              rw [this] at hlt
              exact absurd hlt (by simp)
            · rw [if_neg heq]
              exact strLt_asymm hlt
          · have hch : List.Chain' (fun a b => itemLess b a = false)
                (buildAllItems true ip stamp cp cf ft st (idx + 1)
                  (v2 :: rest2)) := by
              refine ih (idx + 1) ?_
              intro j hj
              have hb : (j + 1) + 1 < (v :: v2 :: rest2).length := by
                simp at hj ⊢
                omega
              have h2 := h (j + 1) hb
              have e1 : idx + (j + 1) = idx + 1 + j := by omega
              rw [e1] at h2
              exact h2
            simpa [buildAllItems] using hch

theorem buildAllItems_ranking_cp (ip : Bool) (stamp : Nat → String)
    (cp cp2 cf : String → Option String) (ft st : String) :
    ∀ (raws : List RawItem) (idx : Nat),
      buildAllItems true ip stamp cp cf ft st idx raws =
        buildAllItems true ip stamp cp2 cf ft st idx raws := by
  intro raws
  induction raws with
  | nil => intro idx; rfl
  | cons v rest ih =>
      intro idx
      simp only [buildAllItems]
      rw [ih (idx + 1)]
      rfl

theorem buildAllItems_ranking_dates (ip : Bool) (stamp : Nat → String)
    (cp cf : String → Option String) (ft st : String) :
    ∀ (raws : List RawItem) (idx : Nat),
      buildAllItems true ip stamp cp cf ft st idx raws =
        buildAllItems true ip stamp cp cf ft st idx (raws.map stripDates) := by
  intro raws
  induction raws with
  | nil => intro idx; rfl
  | cons v rest ih =>
      intro idx
      simp only [buildAllItems, List.map_cons]
      rw [ih (idx + 1)]
      rfl

/-- C7: under ranking mode, timestamp reconciliation assigns the synthetic
strictly decreasing stamps in original feed order, ignoring both the cached
publish timestamps (`cp` may be replaced by any `cp2`) and the
feed-provided dates (`Published`/`Updated` may be erased); the canonical
sort (descending timestamp, ties ascending by original index) then leaves
the built list exactly in the source's own fetched order. -/
theorem ranking_mode_order_preserved (ip : Bool) (stamp : Nat → String)
    (cp cp2 cf : String → Option String) (ft st : String)
    (raws : List RawItem)
    (hmono : ∀ j, j + 1 < raws.length →
      strLt (stamp (j + 1)) (stamp j) = true) :
    stableSort itemLess (buildAllItems true ip stamp cp cf ft st 0 raws) =
      buildAllItems true ip stamp cp cf ft st 0 raws ∧
    buildAllItems true ip stamp cp cf ft st 0 raws =
      buildAllItems true ip stamp cp2 cf ft st 0 raws ∧
    buildAllItems true ip stamp cp cf ft st 0 raws =
      buildAllItems true ip stamp cp cf ft st 0 (raws.map stripDates) := by
  refine ⟨?_, buildAllItems_ranking_cp ip stamp cp cp2 cf ft st raws 0,
    buildAllItems_ranking_dates ip stamp cp cf ft st raws 0⟩
  refine stableSort_eq_self (buildAllItems_chain ip stamp cp cf ft st raws 0 ?_)
  intro j hj
  simpa using hmono j hj

theorem ranking_mode_order_preserved_witness :
    (∀ j, j + 1 < c7Fetch1.length →
      strLt (c7Stamp (j + 1)) (c7Stamp j) = true) ∧
    (stableSort itemLess
        (buildAllItems true false c7Stamp (fun _ => none) (fun _ => none)
          "t" "S" 0 c7Fetch1) =
      buildAllItems true false c7Stamp (fun _ => none) (fun _ => none)
        "t" "S" 0 c7Fetch1 ∧
     buildAllItems true false c7Stamp (fun _ => none) (fun _ => none)
        "t" "S" 0 c7Fetch1 =
      buildAllItems true false c7Stamp (fun _ => some "zzz") (fun _ => none)
        "t" "S" 0 c7Fetch1 ∧
     buildAllItems true false c7Stamp (fun _ => none) (fun _ => none)
        "t" "S" 0 c7Fetch1 =
      buildAllItems true false c7Stamp (fun _ => none) (fun _ => none)
        "t" "S" 0 (c7Fetch1.map stripDates)) ∧
    (stableSort itemLess
        (buildAllItems true false c7Stamp (fun _ => none) (fun _ => none)
          "t" "S" 0 c7Fetch2) =
      buildAllItems true false c7Stamp (fun _ => none) (fun _ => none)
        "t" "S" 0 c7Fetch2 ∧
     buildAllItems true false c7Stamp (fun _ => none) (fun _ => none)
        "t" "S" 0 c7Fetch2 =
      buildAllItems true false c7Stamp (fun _ => some "zzz") (fun _ => none)
        "t" "S" 0 c7Fetch2 ∧
     buildAllItems true false c7Stamp (fun _ => none) (fun _ => none)
        "t" "S" 0 c7Fetch2 =
      buildAllItems true false c7Stamp (fun _ => none) (fun _ => none)
        "t" "S" 0 (c7Fetch2.map stripDates)) ∧
    (stableSort itemLess
        (buildAllItems true false c7Stamp (fun _ => none) (fun _ => none)
          "t" "S" 0 c7Fetch1)).map Item.Title = ["A", "B", "C"] ∧
    (stableSort itemLess
        (buildAllItems true false c7Stamp (fun _ => none) (fun _ => none)
          "t" "S" 0 c7Fetch2)).map Item.Title = ["A", "C", "B"] :=
  have hm1 : ∀ j, j + 1 < c7Fetch1.length →
      strLt (c7Stamp (j + 1)) (c7Stamp j) = true := by
    intro j hj
    have hcases : j = 0 ∨ j = 1 := by
      simp [c7Fetch1] at hj
      omega
    rcases hcases with rfl | rfl <;> decide
  have hm2 : ∀ j, j + 1 < c7Fetch2.length →
      strLt (c7Stamp (j + 1)) (c7Stamp j) = true := by
    intro j hj
    have hcases : j = 0 ∨ j = 1 := by
      simp [c7Fetch2] at hj
      omega
    rcases hcases with rfl | rfl <;> decide
  ⟨hm1,
   ranking_mode_order_preserved false c7Stamp (fun _ => none)
     (fun _ => some "zzz") (fun _ => none) "t" "S" c7Fetch1 hm1,
   ranking_mode_order_preserved false c7Stamp (fun _ => none)
     (fun _ => some "zzz") (fun _ => none) "t" "S" c7Fetch2 hm2,
   by decide, by decide⟩

/-! ## C8: AI batch failures fail-partial; category filtering of
unclassified items -/

theorem setCategory_length : ∀ (l : List Item) (i : Nat) (cat : String),
    (setCategory l i cat).length = l.length := by
  intro l
  induction l with
  | nil => intro i cat; rfl
  | cons x xs ih =>
      intro i cat
      cases i with
      | zero => rfl
      | succ n => simp only [setCategory, List.length_cons, ih]

theorem setCategory_getElem_ne : ∀ (l : List Item) (i j : Nat)
    (cat : String), i ≠ j → (setCategory l i cat)[j]? = l[j]? := by
  intro l
  induction l with
  | nil => intro i j cat _; rfl
  | cons x xs ih =>
      intro i j cat hij
      cases i with
      | zero =>
          cases j with
          | zero => exact absurd rfl hij
          | succ m => simp [setCategory]
      | succ n =>
          cases j with
          | zero => simp [setCategory]
          | succ m =>
              simp only [setCategory, List.getElem?_cons_succ]
              exact ih n m cat (by omega)

theorem applyBatchFold_length (m : List (String × String)) :
    ∀ (tasks : List (Nat × Item)) (acc : List Item × Nat),
      ((tasks.foldl (applyBatchStep m) acc).1).length = acc.1.length := by
  intro tasks
  induction tasks with
  | nil => intro acc; rfl
  | cons t rest ih =>
      intro acc
      rw [List.foldl_cons, ih]
      unfold applyBatchStep
      cases m.lookup (toString t.1) with
      | none => rfl
      | some cat => simp [setCategory_length]

theorem applyBatchFold_untouched (m : List (String × String)) (i : Nat) :
    ∀ (tasks : List (Nat × Item)) (acc : List Item × Nat),
      (∀ t ∈ tasks, t.1 = i → m.lookup (toString t.1) = none) →
      ((tasks.foldl (applyBatchStep m) acc).1)[i]? = (acc.1)[i]? := by
  intro tasks
  induction tasks with
  | nil => intro acc _; rfl
  | cons t rest ih =>
      intro acc h
      rw [List.foldl_cons,
        ih _ (fun u hu => h u (List.mem_cons_of_mem _ hu))]
      unfold applyBatchStep
      by_cases hti : t.1 = i
      · rw [h t (List.mem_cons_self _ _) hti]
      · cases hlk : m.lookup (toString t.1) with
        | none => rfl
        | some cat => simp [setCategory_getElem_ne _ _ _ _ hti]

theorem applyBatchFold_count (m : List (String × String)) :
    ∀ (tasks : List (Nat × Item)) (acc : List Item × Nat),
      (tasks.foldl (applyBatchStep m) acc).2 =
        acc.2 + (tasks.filter
          (fun t => (m.lookup (toString t.1)).isNone)).length := by
  intro tasks
  induction tasks with
  | nil => intro acc; simp
  | cons t rest ih =>
      intro acc
      rw [List.foldl_cons, ih]
      unfold applyBatchStep
      cases hlk : m.lookup (toString t.1) with
      | none => simp [List.filter_cons, hlk]; omega
      | some cat => simp [List.filter_cons, hlk]

theorem foldl_keep_append (p : Item → Bool) :
    ∀ (items : List Item) (acc : List Item),
      items.foldl (fun acc it => if p it then acc ++ [it] else acc) acc =
        acc ++ items.filter p := by
  intro items
  induction items with
  | nil => intro acc; simp
  | cons x xs ih =>
      intro acc
      rw [List.foldl_cons]
      cases hp : p x with
      | true =>
          simp only [hp, if_true]
          rw [ih, List.filter_cons, hp]
          simp
      | false =>
          simp only [hp, Bool.false_eq_true, if_false]
          rw [ih, List.filter_cons, hp]
          simp

theorem applyCategoryFilter_eq_filter (items : List Item)
    (wl bl : List String) :
    applyCategoryFilter items wl bl = items.filter (categoryKeep wl bl) := by
  unfold applyCategoryFilter
  rw [foldl_keep_append]
  simp

/-- C8: a batch whose retries are exhausted (response `none`) marks all its
tasks failed and leaves every item untouched; the AI stage never drops an
item (the item list length is preserved for every response); a task whose
index is missing from the response map keeps its item unclassified and is
counted failed; empty-category items survive the keyword-`_filtered` drop,
are removed by a configured non-empty category whitelist (of real category
ids), pass through when only a benign blacklist or nothing is configured,
and `_keep` items always bypass category filtering. -/
theorem ai_batch_failure_handling :
    (∀ (finalItems : List Item) (tasks : List (Nat × Item)),
        applyBatchResult finalItems tasks none = (finalItems, tasks.length)) ∧
    (∀ (finalItems : List Item) (tasks : List (Nat × Item))
        (results : Option (List (String × String))),
        ((applyBatchResult finalItems tasks results).1).length =
          finalItems.length) ∧
    (∀ (finalItems : List Item) (tasks : List (Nat × Item))
        (m : List (String × String)) (i : Nat),
        (∀ t ∈ tasks, t.1 = i → m.lookup (toString t.1) = none) →
        ((applyBatchResult finalItems tasks (some m)).1)[i]? =
          finalItems[i]?) ∧
    (∀ (finalItems : List Item) (tasks : List (Nat × Item))
        (m : List (String × String)),
        (applyBatchResult finalItems tasks (some m)).2 =
          (tasks.filter (fun t => (m.lookup (toString t.1)).isNone)).length) ∧
    (∀ (items : List Item) (it : Item), it ∈ items → it.Category = "" →
        it ∈ dropKeywordFiltered items) ∧
    (∀ (items : List Item) (wl bl : List String),
        applyCategoryFilter items wl bl =
          items.filter (categoryKeep wl bl)) ∧
    (∀ (it : Item) (wl bl : List String), it.Category = "" → wl ≠ [] →
        "" ∉ wl → categoryKeep wl bl it = false) ∧
    (∀ (it : Item) (wl bl : List String), it.Category = "" → wl = [] →
        "" ∉ bl → categoryKeep wl bl it = true) ∧
    (∀ (it : Item) (wl bl : List String), it.Category = "_keep" →
        categoryKeep wl bl it = true) := by
  refine ⟨fun _ _ => rfl, ?_, ?_, ?_, ?_, applyCategoryFilter_eq_filter,
    ?_, ?_, ?_⟩
  · intro finalItems tasks results
    cases results with
    | none => rfl
    | some m => exact applyBatchFold_length m tasks (finalItems, 0)
  · intro finalItems tasks m i h
    exact applyBatchFold_untouched m i tasks (finalItems, 0) h
  · intro finalItems tasks m
    rw [show (applyBatchResult finalItems tasks (some m)).2 =
        (tasks.foldl (applyBatchStep m) (finalItems, 0)).2 from rfl,
      applyBatchFold_count]
    simp
  · intro items it hmem hcat
    unfold dropKeywordFiltered
    rw [List.mem_filter]
    exact ⟨hmem, by simp [hcat]⟩
  · intro it wl bl hcat hwl hnil
    unfold categoryKeep
    rw [hcat]
    rw [if_neg (by simp), if_pos hwl]
    simpa using hnil
  · intro it wl bl hcat hwl hbl
    unfold categoryKeep
    rw [hcat]
    rw [if_neg (by simp), if_neg (by simp [hwl])]
    by_cases hb : bl ≠ []
    · rw [if_pos hb]
      simpa using hbl
    · rw [if_neg hb]
  · intro it wl bl hcat
    unfold categoryKeep
    rw [if_pos hcat]

theorem ai_batch_failure_handling_witness :
    (applyBatchResult [{ Link := "A" }, { Link := "B" }] [(1, { Link := "B" })]
        none = ([{ Link := "A" }, { Link := "B" }], 1)) ∧
    ((∀ t ∈ ([(1, ({ Link := "B" } : Item))] : List (Nat × Item)), t.1 = 1 →
        ([] : List (String × String)).lookup (toString t.1) = none) ∧
     ((applyBatchResult [{ Link := "A" }, { Link := "B" }]
          [(1, { Link := "B" })] (some [])).1)[1]? =
        ([{ Link := "A" }, ({ Link := "B" } : Item)])[1]?) ∧
    ((({ Link := "A" } : Item).Category = "" ∧ (["news"] : List String) ≠ [] ∧
        "" ∉ (["news"] : List String)) ∧
     categoryKeep ["news"] [] { Link := "A" } = false) ∧
    ((({ Link := "A" } : Item).Category = "" ∧ ([] : List String) = ([] : List String) ∧
        "" ∉ (["spam"] : List String)) ∧
     categoryKeep [] ["spam"] { Link := "A" } = true) ∧
    ((({ Link := "K", Category := "_keep" } : Item).Category = "_keep") ∧
     categoryKeep ["news"] [] { Link := "K", Category := "_keep" } = true) :=
  ⟨ai_batch_failure_handling.1 [{ Link := "A" }, { Link := "B" }]
      [(1, { Link := "B" })],
   ⟨by decide,
    ai_batch_failure_handling.2.2.1 [{ Link := "A" }, { Link := "B" }]
      [(1, { Link := "B" })] [] 1 (by decide)⟩,
   ⟨⟨by decide, by decide, by decide⟩,
    ai_batch_failure_handling.2.2.2.2.2.2.1 { Link := "A" } ["news"] []
      (by decide) (by decide) (by decide)⟩,
   ⟨⟨by decide, by decide, by decide⟩,
    ai_batch_failure_handling.2.2.2.2.2.2.2.1 { Link := "A" } [] ["spam"]
      (by decide) (by decide) (by decide)⟩,
   ⟨by decide,
    ai_batch_failure_handling.2.2.2.2.2.2.2.2
      { Link := "K", Category := "_keep" } ["news"] [] (by decide)⟩⟩

/-! ## C9: script filter fail-open -/

/-- C9: a timeout, a non-zero exit, or any other execution error returns the
pre-script list unchanged with an error surfaced (fail-open); output that
parses neither as a JSON array nor as newline-delimited JSON objects does
the same; a successful run with empty (all-whitespace) standard output
returns the empty list with no error. -/
theorem script_filter_fail_open :
    (∀ (parseArr : String → Option (List Item))
        (parseLine : String → Option Item) (items : List Item),
        items ≠ [] →
        applyScriptFilter parseArr parseLine items .timeout = (items, true)) ∧
    (∀ (parseArr : String → Option (List Item))
        (parseLine : String → Option Item) (items : List Item) (msg : String),
        items ≠ [] →
        applyScriptFilter parseArr parseLine items (.exitErr msg) =
          (items, true)) ∧
    (∀ (parseArr : String → Option (List Item))
        (parseLine : String → Option Item) (items : List Item) (msg : String),
        items ≠ [] →
        applyScriptFilter parseArr parseLine items (.otherErr msg) =
          (items, true)) ∧
    (∀ (parseArr : String → Option (List Item))
        (parseLine : String → Option Item) (items : List Item) (s : String),
        items ≠ [] → trimString s ≠ "" → parseArr s = none →
        parseJSONLines parseLine (trimString s) = none →
        applyScriptFilter parseArr parseLine items (.output s) =
          (items, true)) ∧
    (∀ (parseArr : String → Option (List Item))
        (parseLine : String → Option Item) (items : List Item) (s : String),
        items ≠ [] → trimString s = "" →
        applyScriptFilter parseArr parseLine items (.output s) =
          ([], false)) := by
  refine ⟨?_, ?_, ?_, ?_, ?_⟩
  · intro pa pl items hne
    unfold applyScriptFilter
    rw [if_neg hne]
  · intro pa pl items msg hne
    unfold applyScriptFilter
    rw [if_neg hne]
  · intro pa pl items msg hne
    unfold applyScriptFilter
    rw [if_neg hne]
  · intro pa pl items s hne htr hpa hpl
    unfold applyScriptFilter
    rw [if_neg hne]
    simp only [htr, hpa, hpl, if_neg htr]
    simp
  · intro pa pl items s hne htr
    unfold applyScriptFilter
    rw [if_neg hne]
    simp only [htr, if_pos rfl]
    simp

theorem script_filter_fail_open_witness :
    (([{ Link := "A" }] : List Item) ≠ [] ∧ trimString "x" ≠ "" ∧
      (fun (_ : String) => (none : Option (List Item))) "x" = none ∧
      parseJSONLines (fun _ => (none : Option Item)) (trimString "x") =
        none) ∧
    applyScriptFilter (fun _ => none) (fun _ => none) [{ Link := "A" }]
        (.output "x") = ([{ Link := "A" }], true) ∧
    applyScriptFilter (fun _ => none) (fun _ => none) [{ Link := "A" }]
        .timeout = ([{ Link := "A" }], true) ∧
    (trimString " " = "" ∧
      applyScriptFilter (fun _ => none) (fun _ => none) [{ Link := "A" }]
          (.output " ") = ([], false)) :=
  ⟨⟨by decide, by decide, rfl, by decide⟩,
   script_filter_fail_open.2.2.2.1 (fun _ => none) (fun _ => none)
     [{ Link := "A" }] "x" (by decide) (by decide) rfl (by decide),
   script_filter_fail_open.1 (fun _ => none) (fun _ => none)
     [{ Link := "A" }] (by decide),
   ⟨by decide,
    script_filter_fail_open.2.2.2.2 (fun _ => none) (fun _ => none)
      [{ Link := "A" }] " " (by decide) (by decide)⟩⟩

/-! ## C10: a negative configured retry count makes the classification
step non-total -/

/-- C10: with a negative configured retry count, `GetRetryCount` returns 0,
the batch worker's retry loop executes zero attempts leaving both the
response and the error at `nil`, and the subsequent read of the response's
`Results` map dereferences the nil response — the nil-dereference branch
(modelled as the `none` outcome) is reachable for every oracle and task
list, so the classification step is not total under this configuration. -/
theorem negative_retry_nil_deref (c : Int) (hc : c < 0)
    (oracle : Nat → Except String (List (String × String)))
    (finalItems : List Item) (tasks : List (Nat × Item)) :
    GetRetryCount c = 0 ∧
    retryLoop oracle (GetRetryCount c) = (none, none) ∧
    batchWorkerOutcome c oracle finalItems tasks = none := by
  have h0 : GetRetryCount c = 0 := by
    unfold GetRetryCount
    rw [if_pos hc]
  refine ⟨h0, ?_, ?_⟩
  · rw [h0]
    rfl
  · unfold batchWorkerOutcome
    rw [h0]
    rfl

theorem negative_retry_nil_deref_witness :
    (-1 : Int) < 0 ∧
    (GetRetryCount (-1) = 0 ∧
     retryLoop (fun _ => .error "boom") (GetRetryCount (-1)) =
       (none, none) ∧
     batchWorkerOutcome (-1) (fun _ => .error "boom")
       [{ Link := "A" }] [(0, { Link := "A" })] = none) :=
  ⟨by decide,
   negative_retry_nil_deref (-1) (by decide) (fun _ => .error "boom")
     [{ Link := "A" }] [(0, { Link := "A" })]⟩

/-! ## C1: order preservation, and where cache-merge backfill breaks it -/

/-- C1 (amended): for every pipeline run, the filtered list re-derived from
the canonically sorted full pre-filter list — before post-processing and
cache-merge backfill — is a subsequence, in the same relative order, of that
canonical (timestamp-desc, index-asc-tiebreak) order. -/
theorem rederived_filtered_sublist_canonical
    (allItems : List Item) (passed : List String) :
    List.Sublist (rederiveFiltered (stableSort itemLess allItems) passed)
      (stableSort itemLess allItems) := by
  unfold rederiveFiltered
  by_cases h : passed.length < (stableSort itemLess allItems).length
  · rw [if_pos h]
    exact List.filter_sublist _
  · rw [if_neg h]

/-- C1 (counterexample to the claim as stated): in the concrete run `c1Run`
the merge step backfills the retained item `B`, which is not in the current
full pre-filter item list, so the snapshot's stored item list is not a
subsequence of the canonical order of the full pre-filter list (whose link
sequence the snapshot itself records in `AllItemLinks`). -/
theorem snapshot_subsequence_counterexample :
    c1Run = .published c1Snapshot
      (some (c1Snapshot.Items.map projectCacheItem)) ∧
    c1Snapshot.Items.map Item.Link = ["A", "B"] ∧
    c1Snapshot.AllItemLinks = ["A"] ∧
    ¬ List.Sublist (c1Snapshot.Items.map Item.Link)
        c1Snapshot.AllItemLinks := by
  refine ⟨by decide, by decide, by decide, by decide⟩

theorem merge_cache_bound_witness :
    (0 : Int) < 2 ∧
    ((((mergeWithCachedItems [{ Link := "a" }]
          (some [{ Link := "b" }]) 2).2.length : Int) ≤ 2) ∧
     ((mergeWithCachedItems [{ Link := "a" }]
          (some [{ Link := "b" }]) 2).2.map Item.Link).Nodup ∧
     (mergeWithCachedItems [{ Link := "a" }]
          (some [{ Link := "b" }]) 2).2 =
       (((dedupNew [{ Link := "a" }] []).1 ++
           backfill (dedupNew [{ Link := "a" }] []).2
             ((some [{ Link := "b" }]).getD [])).take
         (2 : Int).toNat).map projectCacheItem ∧
     (∀ filteredItems : List Item,
         effectiveCacheItems 0 filteredItems =
           (filteredItems.length : Int))) :=
  ⟨by decide,
   merge_cache_bound [{ Link := "a" }] (some [{ Link := "b" }]) 2 (by decide)⟩

end Feedora
